import Mathlib

/-!
Verification of the backend-abstraction and selection engine of the
Instant Translator browser extension (repository `bsh75/translate_extension`).

The development shallowly embeds the decision logic of the repository:

* `Translator.Ollama`       — `src/claudeshot/backends/ollama.js` (the file
  whose text appears as `src/unnamed/part_003`): model selection
  (`getDefaultModel`, `getFallbackModel`, `getPreferredModel`), prompt
  formatting (`formatPrompt`), response cleaning and the empty-response check
  of `callOllamaApi`, and the one-shot fallback driver `translate`.
* `Translator.LegacyOllama` — the older copy of `backends/ollama.js` kept in
  the repository (second half of `src/unnamed/part_002`), whose
  `callOllamaApi` does not reject an empty cleaned response.
* `Translator.Background`   — `src/claudeshot/background.js`: the hardcoded
  default configuration, config loading/merging, the derived language
  catalog, the `getConfig` answer and the translate-request dispatch.

JavaScript strings that undergo character-level surgery (response cleaning,
prompt templates) are modelled as `List Char`; identifiers and language codes,
which are only compared for equality, are modelled as `String`.  A JavaScript
value that may be `undefined`/missing is modelled as an `Option`, and the
string-falsiness tests of the source (`!s` is true for missing *and* empty
strings) are translated explicitly.  Network effects are modelled by an
oracle function passed to the embedded code.
-/

namespace Translator

/-- The single-quote character `'` (code 39). -/
def squoteChar : Char := Char.ofNat 39

/-- The double-quote character `"` (code 34). -/
def dquoteChar : Char := Char.ofNat 34

/-- The opening-brace character (code 123). -/
def lbraceChar : Char := Char.ofNat 123

/-- JavaScript string falsiness for possibly-missing strings: `!s` holds when
`s` is `undefined`/`null` or the empty string. -/
def jsFalsyStr : Option String → Bool
  | none => true
  | some s => s.isEmpty

namespace Ollama

/-- One entry of `promptTemplates` (a JS object mapping a style name to a
template string); object-key lookup is modelled by association-list lookup. -/
abbrev TemplateMap := List (String × List Char)

/-- A model descriptor from the ollama backend configuration
(`src/unnamed/part_003`).  The JS `default` property is called `isDefault`
(`default` is not usable as a field name); a missing property is `false`. -/
structure Model where
  id : String
  name : String
  endpoint : String
  isDefault : Bool
  promptTemplates : Option TemplateMap
deriving DecidableEq

/-- A language-pair preference entry (`{source, target, preferredModel}`). -/
structure LanguagePair where
  source : String
  target : String
  preferredModel : Option String
deriving DecidableEq

/-- The ollama slice of the backend settings (`ollamaConfig` in
`src/unnamed/part_003`).  Missing `models`/`languagePairs` arrays are the
empty list. -/
structure OllamaConfig where
  models : List Model
  languagePairs : List LanguagePair
  fallbackModelId : Option String
deriving DecidableEq

/-- `getDefaultModel` of `src/unnamed/part_003` lines 49–65: the first model
with `default === true`, else the first model, else `null`. -/
def getDefaultModel (cfg : OllamaConfig) : Option Model :=
  match cfg.models.find? (fun m => m.isDefault) with
  | some m => some m
  | none => cfg.models.head?

/-- `getFallbackModel` of `src/unnamed/part_003` lines 68–82: the model whose
id equals `fallbackModelId` when that id is set (non-falsy) and found,
otherwise the default model. -/
def getFallbackModel (cfg : OllamaConfig) : Option Model :=
  match cfg.fallbackModelId with
  | none => getDefaultModel cfg
  | some fid =>
    if fid.isEmpty then getDefaultModel cfg
    else
      match cfg.models.find? (fun m => m.id == fid) with
      | some m => some m
      | none => getDefaultModel cfg

/-- `getPreferredModel` of `src/unnamed/part_003` lines 85–122: with a falsy
or `"auto"` source the default model; else the first language-pair entry for
(source, target); if it names a non-falsy `preferredModel` that resolves in
the models list, that model, otherwise the default model. -/
def getPreferredModel (cfg : OllamaConfig) (sourceLangCode : Option String)
    (targetLangCode : String) : Option Model :=
  if jsFalsyStr sourceLangCode || sourceLangCode == some "auto" then
    getDefaultModel cfg
  else
    match cfg.languagePairs.find?
        (fun p => some p.source == sourceLangCode && p.target == targetLangCode) with
    | some pair =>
      match pair.preferredModel with
      | some pid =>
        if pid.isEmpty then getDefaultModel cfg
        else
          match cfg.models.find? (fun m => m.id == pid) with
          | some m => some m
          | none => getDefaultModel cfg
      | none => getDefaultModel cfg
    | none => getDefaultModel cfg

/-- Spec-side description of the default model, written from the words of the
claims: "the first model with default=true, else the first model in the
sequence, else none".  Compared against the code's `getDefaultModel`. -/
def defaultModelSpec (cfg : OllamaConfig) : Option Model :=
  match cfg.models.find? (fun m => m.isDefault) with
  | some m => some m
  | none =>
    match cfg.models with
    | [] => none
    | m :: _ => some m

/-- Literal-prefix test on character lists (helper for the substring search
of JS `String.prototype.replace` with a string pattern). -/
def strStarts : List Char → List Char → Bool
  | [], _ => true
  | _ :: _, [] => false
  | a :: as, b :: bs => a == b && strStarts as bs

/-- Split `s` at the first occurrence of `pat`: `some (pre, post)` with the
leftmost match between them, or `none` when `pat` does not occur.  This is the
search step of JS `String.prototype.replace` with a string pattern (an empty
pattern matches at the start, as in JS). -/
def splitFirst (pat : List Char) : List Char → Option (List Char × List Char)
  | [] => if pat.isEmpty then some ([], []) else none
  | c :: rest =>
    if strStarts pat (c :: rest) then some ([], (c :: rest).drop pat.length)
    else
      match splitFirst pat rest with
      | some (pre, post) => some (c :: pre, post)
      | none => none

/-- The `GetSubstitution` step of JS `String.prototype.replace` for a string
pattern (so no capture groups): in the replacement string `$$` is a literal
dollar, `$&` inserts the matched text, a dollar followed by a backquote
(code 96) inserts the text before the match, a dollar followed by a
single quote (code 39) inserts the text after the match, and any other
dollar sequence stays literal. -/
def dollarSubst (matched before after : List Char) : List Char → List Char
  | [] => []
  | c :: rest =>
    if c == '$' then
      match rest with
      | [] => ['$']
      | c2 :: rest2 =>
        if c2 == '$' then '$' :: dollarSubst matched before after rest2
        else if c2 == '&' then matched ++ dollarSubst matched before after rest2
        else if c2 == Char.ofNat 96 then before ++ dollarSubst matched before after rest2
        else if c2 == squoteChar then after ++ dollarSubst matched before after rest2
        else '$' :: c2 :: dollarSubst matched before after rest2
    else c :: dollarSubst matched before after rest

/-- JS `s.replace(pat, repl)` for a string pattern: replace the first
occurrence only, applying dollar substitution to the replacement; when `pat`
does not occur, `s` is returned unchanged. -/
def jsReplaceFirst (s pat repl : List Char) : List Char :=
  match splitFirst pat s with
  | some (pre, post) => pre ++ dollarSubst pat pre post repl ++ post
  | none => s

/-- The source-language placeholder of the prompt templates. -/
def srcPlaceholder : List Char := "{sourceLanguage}".data

/-- The target-language placeholder of the prompt templates. -/
def tgtPlaceholder : List Char := "{targetLanguage}".data

/-- The text placeholder of the prompt templates. -/
def textPlaceholder : List Char := "{text}".data

/-- The hard-coded basic template used by `formatPrompt` when a model provides
no usable template (`src/unnamed/part_003` line 134). -/
def basicTemplate : List Char :=
  "Translate from {sourceLanguage} to {targetLanguage}: \"{text}\"".data

/-- Truthy lookup of a style key in `promptTemplates`: `none` when the map is
missing, the key is absent, or the stored template is the empty (falsy)
string — mirroring the `!template` checks of `formatPrompt`. -/
def lookupStyleTemplate (pts : Option TemplateMap) (key : String) : Option (List Char) :=
  match pts with
  | none => none
  | some ts =>
    match ts.find? (fun kv => kv.1 == key) with
    | some kv => if kv.2.isEmpty then none else some kv.2
    | none => none

/-- The template-selection chain of `formatPrompt` (`src/unnamed/part_003`
lines 126–136): the requested style (falsy styles degrade to `"natural"`),
else the `"natural"` template, else the basic built-in template. -/
def selectTemplate (model : Model) (style : Option String) : List Char :=
  let actualStyle : String :=
    match style with
    | none => "natural"
    | some s => if s.isEmpty then "natural" else s
  match lookupStyleTemplate model.promptTemplates actualStyle with
  | some t => t
  | none =>
    match lookupStyleTemplate model.promptTemplates "natural" with
    | some t => t
    | none => basicTemplate

/-- Lines 138–139 of `src/unnamed/part_003`: auto-detect sources are rendered
as a generic phrase inside the prompt. -/
def displaySourceLang (s : String) : String :=
  if s == "Auto-detect" || s == "auto" then "the source language" else s

/-- `formatPrompt` of `src/unnamed/part_003` lines 125–145: select the
template and substitute, in order, the first occurrence of each of the three
placeholders. -/
def formatPrompt (model : Model) (sourceLanguage targetLanguage : String)
    (text : List Char) (style : Option String) : List Char :=
  jsReplaceFirst
    (jsReplaceFirst
      (jsReplaceFirst (selectTemplate model style) srcPlaceholder
        (displaySourceLang sourceLanguage).data)
      tgtPlaceholder targetLanguage.data)
    textPlaceholder text

/-- A list of characters free of the placeholder-opening brace. -/
def braceFree (l : List Char) : Bool := l.all (fun c => !(c == lbraceChar))

/-- A list of characters free of the dollar-substitution character. -/
def dollarFree (l : List Char) : Bool := l.all (fun c => !(c == '$'))

/-- A substituted value is inert when it can neither create nor contain a
placeholder occurrence (no opening brace) nor trigger dollar substitution. -/
def inert (l : List Char) : Bool := braceFree l && dollarFree l

/-- A single-template model used to probe `formatPrompt` on adversarial
substituted values. -/
def pipeModel : Model where
  id := "pipe"
  name := "Pipe"
  endpoint := "http://localhost:11434/api/generate"
  isDefault := true
  promptTemplates := some [("natural", "{sourceLanguage}|{targetLanguage}|{text}".data)]

/-- Case-insensitive literal-prefix test (the `i` flag of the preamble
regex of `callOllamaApi`). -/
def ciStarts : List Char → List Char → Bool
  | [], _ => true
  | _ :: _, [] => false
  | a :: as, b :: bs => a.toLower == b.toLower && ciStarts as bs

/-- The first preamble phrase (it contains a single-quote character). -/
def phraseHeres : List Char :=
  "Here".data ++ [squoteChar] ++ "s the translation:".data

/-- The fixed preamble-phrase alternation of the cleaning regex of
`callOllamaApi` (`src/unnamed/part_003` line 177), in source order. -/
def preamblePhrases : List (List Char) :=
  [phraseHeres, "The translation is:".data, "Translated text:".data,
   "Translation:".data]

/-- The anchored, non-global preamble regex strips the first (and only the
first) phrase of the alternation that matches at the start of the string,
case-insensitively. -/
def stripPreamble (s : List Char) : List Char :=
  match preamblePhrases.find? (fun p => ciStarts p s) with
  | some p => s.drop p.length
  | none => s

/-- JS `String.prototype.trim`: drop leading and trailing whitespace. -/
def trimChars (s : List Char) : List Char :=
  ((s.dropWhile Char.isWhitespace).reverse.dropWhile Char.isWhitespace).reverse

/-- The quote-character class `["']` of the cleaning regex. -/
def isQuoteChar (c : Char) : Bool := c == dquoteChar || c == squoteChar

/-- Strip one leading quote character, if present. -/
def stripLeadingQuote : List Char → List Char
  | [] => []
  | c :: rest => if isQuoteChar c then rest else c :: rest

/-- Strip one trailing quote character, if present. -/
def stripTrailingQuote (s : List Char) : List Char :=
  if s.getLast?.any isQuoteChar then s.dropLast else s

/-- The single global pass of `replace(/^["']|["']$/g, '')`: it removes at
most one leading and at most one trailing quote character (the two anchored
alternatives each match at most once, and a character consumed by the leading
match is not reconsidered for the trailing one). -/
def stripQuotePair (s : List Char) : List Char :=
  stripTrailingQuote (stripLeadingQuote s)

/-- The response-cleaning pipeline of `callOllamaApi` (`src/unnamed/part_003`
lines 176–178): strip one leading preamble phrase, trim, then strip one pair
of surrounding quote characters. -/
def cleanResponse (raw : List Char) : List Char :=
  stripQuotePair (trimChars (stripPreamble raw))

/-- Outcome of one network round-trip against the generation endpoint:
either the fetch threw / the response status was not ok (collapsed into one
error message, as both become thrown `Error`s in the source), or a parsed
body whose `response` field is the given text (a missing field is the empty
string, from `data.response || ''`). -/
inductive ApiOutcome
  | httpError (msg : String)
  | ok (response : List Char)
deriving DecidableEq

/-- The network is modelled as a function of model id, endpoint and prompt. -/
abbrev ApiOracle := String → String → List Char → ApiOutcome

/-- `callOllamaApi` of `src/unnamed/part_003` lines 148–190: on a transport
or HTTP error the error propagates; otherwise the raw response is cleaned and
an empty cleaned response is itself an error. -/
def callOllamaApi (api : ApiOracle) (modelId endpoint : String)
    (prompt : List Char) : Except String (List Char) :=
  match api modelId endpoint prompt with
  | .httpError msg => .error msg
  | .ok raw =>
    if (cleanResponse raw).isEmpty then
      .error "Received empty translation from Ollama."
    else .ok (cleanResponse raw)

/-- One recorded API call (model id, endpoint, prompt), used to state how
many attempts `translate` makes and with which prompts. -/
structure ApiCall where
  modelId : String
  endpoint : String
  prompt : List Char
deriving DecidableEq

/-- The result object of `translate`: `{success: true, translation,
usedFallback, modelUsed}` or `{success: false, error}`. -/
inductive TranslateResult
  | ok (translation : List Char) (usedFallback : Bool) (modelUsed : String)
  | err (error : String)
deriving DecidableEq

/-- JS string coercion of a possibly-undefined string (an undefined source
language would be interpolated as the text `undefined`). -/
def jsStringOfOption : Option String → String
  | none => "undefined"
  | some s => s

/-- Line 229 of `src/unnamed/part_003`: `sourceLangCode === 'auto' ?
'Auto-detect' : sourceLangCode`. -/
def actualSourceLang (sourceLangCode : Option String) : String :=
  if sourceLangCode == some "auto" then "Auto-detect"
  else jsStringOfOption sourceLangCode

/-- `translate` of `src/unnamed/part_003` lines 204–274, instrumented to also
return the list of API calls it makes, in order: guard on an empty model
list, resolve preferred and fallback models, attempt the preferred model
once, and on failure retry exactly once with the fallback model (with a
freshly formatted prompt) only when its id differs from the preferred id. -/
def translate (cfg : OllamaConfig) (api : ApiOracle) (text : List Char)
    (sourceLangCode : Option String) (targetLangCode : String)
    (style : Option String) : TranslateResult × List ApiCall :=
  if cfg.models.isEmpty then
    (.err "Ollama backend not properly initialized or no models configured.", [])
  else
    match getPreferredModel cfg sourceLangCode targetLangCode with
    | none => (.err "No suitable Ollama model found for this language pair.", [])
    | some preferredModel =>
      let fallbackModel := getFallbackModel cfg
      let srcLang := actualSourceLang sourceLangCode
      let prompt := formatPrompt preferredModel srcLang targetLangCode text style
      let firstCall : ApiCall := ⟨preferredModel.id, preferredModel.endpoint, prompt⟩
      match callOllamaApi api preferredModel.id preferredModel.endpoint prompt with
      | .ok translation => (.ok translation false preferredModel.id, [firstCall])
      | .error preferredError =>
        match fallbackModel with
        | some fb =>
          if fb.id == preferredModel.id then
            (.err ("Translation failed with model " ++ preferredModel.id
              ++ ". Error: " ++ preferredError), [firstCall])
          else
            let fallbackPrompt := formatPrompt fb srcLang targetLangCode text style
            let fbCall : ApiCall := ⟨fb.id, fb.endpoint, fallbackPrompt⟩
            match callOllamaApi api fb.id fb.endpoint fallbackPrompt with
            | .ok ft => (.ok ft true fb.id, [firstCall, fbCall])
            | .error _ =>
              (.err ("Translation failed with both preferred (" ++ preferredModel.id
                ++ ") and fallback (" ++ fb.id ++ ") models."), [firstCall, fbCall])
        | none =>
          (.err ("Translation failed with model " ++ preferredModel.id
            ++ ". Error: " ++ preferredError), [firstCall])

/-- The natural-style prompt template of the `gemma3:1b` model in the
repository's `config.json` (`src/unnamed/part_004`). -/
def gemmaNaturalTemplate : String :=
  "Translate the following text from {sourceLanguage} to {targetLanguage}: \"{text}\". Provide only the translation without any additional commentary."

/-- The literal-style prompt template of the `gemma3:1b` model in
`config.json`. -/
def gemmaLiteralTemplate : String :=
  "Translate the following text from {sourceLanguage} to {targetLanguage} word-for-word, preserving the original structure as much as possible: \"{text}\". Focus on direct translation of each word rather than natural flow. Provide only the translation without any additional commentary."

/-- The natural-style prompt template of the Japanese model in `config.json`. -/
def jpnNaturalTemplate : String :=
  "Translate this text from {sourceLanguage} to {targetLanguage}: \"{text}\". Provide only the translation without any additional commentary."

/-- The literal-style prompt template of the Japanese model in `config.json`. -/
def jpnLiteralTemplate : String :=
  "Translate this text from {sourceLanguage} to {targetLanguage} word-for-word: \"{text}\". Focus on direct translation. Provide only the translation without any additional commentary."

/-- The `gemma3:1b` model descriptor of the repository's `config.json`. -/
def gemmaModel : Model where
  id := "gemma3:1b"
  name := "Gemma 3 1B"
  endpoint := "http://localhost:11434/api/generate"
  isDefault := true
  promptTemplates := some
    [("natural", gemmaNaturalTemplate.data), ("literal", gemmaLiteralTemplate.data)]

/-- The Japanese-specialised model descriptor of the repository's
`config.json`. -/
def jpnModel : Model where
  id := "7shi/gemma-2-jpn-translate:2b-instruct-q8_0"
  name := "Gemma 2 2B Japanese"
  endpoint := "http://localhost:11434/api/generate"
  isDefault := false
  promptTemplates := some
    [("natural", jpnNaturalTemplate.data), ("literal", jpnLiteralTemplate.data)]

/-- The ollama slice of the repository's bundled `config.json`
(`src/unnamed/part_004`): two models, four language-pair preferences and a
`fallbackModelId` of `gemma3:1b`. -/
def configJson : OllamaConfig where
  models := [gemmaModel, jpnModel]
  languagePairs :=
    [⟨"en", "ja", some jpnModel.id⟩,
     ⟨"ja", "en", some jpnModel.id⟩,
     ⟨"en", "es", some gemmaModel.id⟩,
     ⟨"es", "en", some gemmaModel.id⟩]
  fallbackModelId := some "gemma3:1b"

/-- A network oracle on which every request fails (used to exercise the
failure paths on concrete inputs). -/
def refusingApi : ApiOracle := fun _ _ _ => ApiOutcome.httpError "connection refused"

/-- A network oracle on which only the `gemma3:1b` model answers. -/
def gemmaOnlyApi : ApiOracle := fun modelId _ _ =>
  if modelId == "gemma3:1b" then ApiOutcome.ok "Hola".data
  else ApiOutcome.httpError "connection refused"

/-- A network oracle whose response body is a pair of double quotes — a raw
response that cleans to the empty string. -/
def emptyQuotesApi : ApiOracle := fun _ _ _ => ApiOutcome.ok [dquoteChar, dquoteChar]

end Ollama

namespace LegacyOllama

open Ollama

/-- The hardcoded `ollamaConfig` constant of the older backend copy
(`src/unnamed/part_002` lines 209–264).  Its model, language-pair and
fallback-id data are textually identical to the ollama slice of
`config.json`, so it is the same `OllamaConfig` value; its
`languageDetection` table is not read by any function modelled here and is
omitted, exactly as in `Ollama.OllamaConfig`. -/
def legacyConfig : OllamaConfig := configJson

/-- `getDefaultModel` of `src/unnamed/part_002` lines 267–269. -/
def getDefaultModel (cfg : OllamaConfig) : Option Model :=
  match cfg.models.find? (fun m => m.isDefault) with
  | some m => some m
  | none => cfg.models.head?

/-- `getFallbackModel` of `src/unnamed/part_002` lines 272–275 (this copy has
no falsiness guard on `fallbackModelId`; a missing id simply never matches
and the default model is used). -/
def getFallbackModel (cfg : OllamaConfig) : Option Model :=
  match cfg.models.find? (fun m => some m.id == cfg.fallbackModelId) with
  | some m => some m
  | none => getDefaultModel cfg

/-- `getPreferredModel` of `src/unnamed/part_002` lines 278–289 (same
decision structure as the current copy). -/
def getPreferredModel (cfg : OllamaConfig) (sourceLangCode : Option String)
    (targetLangCode : String) : Option Model :=
  if jsFalsyStr sourceLangCode || sourceLangCode == some "auto" then
    getDefaultModel cfg
  else
    match cfg.languagePairs.find?
        (fun p => some p.source == sourceLangCode && p.target == targetLangCode) with
    | some pair =>
      match pair.preferredModel with
      | some pid =>
        if pid.isEmpty then getDefaultModel cfg
        else
          match cfg.models.find? (fun m => m.id == pid) with
          | some m => some m
          | none => getDefaultModel cfg
      | none => getDefaultModel cfg
    | none => getDefaultModel cfg

/-- `callOllamaApi` of `src/unnamed/part_002` lines 315–354: the same
cleaning pipeline as the current copy, but the empty-response rejection is
commented out in this file, so an empty cleaned response is returned as a
*successful* value. -/
def callOllamaApi (api : ApiOracle) (modelId endpoint : String)
    (prompt : List Char) : Except String (List Char) :=
  match api modelId endpoint prompt with
  | .httpError msg => .error msg
  | .ok raw => .ok (cleanResponse raw)

/-- `translate` of `src/unnamed/part_002` lines 368–421, instrumented with
the list of API calls it makes; prompt formatting (`formatPrompt`,
lines 292–312 of that file) is textually identical to the current copy and is
shared. -/
def translate (cfg : OllamaConfig) (api : ApiOracle) (text : List Char)
    (sourceLangCode : Option String) (targetLangCode : String)
    (style : Option String) : TranslateResult × List ApiCall :=
  match getPreferredModel cfg sourceLangCode targetLangCode with
  | none => (.err "No suitable Ollama model found in configuration.", [])
  | some preferredModel =>
    let fallbackModel := getFallbackModel cfg
    let srcLang := actualSourceLang sourceLangCode
    let prompt := formatPrompt preferredModel srcLang targetLangCode text style
    let firstCall : ApiCall := ⟨preferredModel.id, preferredModel.endpoint, prompt⟩
    match callOllamaApi api preferredModel.id preferredModel.endpoint prompt with
    | .ok translation => (.ok translation false preferredModel.id, [firstCall])
    | .error _ =>
      match fallbackModel with
      | some fb =>
        if fb.id == preferredModel.id then
          (.err ("Translation failed with model " ++ preferredModel.id
            ++ ". No fallback available or fallback failed."), [firstCall])
        else
          let fallbackPrompt := formatPrompt fb srcLang targetLangCode text style
          let fbCall : ApiCall := ⟨fb.id, fb.endpoint, fallbackPrompt⟩
          match callOllamaApi api fb.id fb.endpoint fallbackPrompt with
          | .ok ft => (.ok ft true fb.id, [firstCall, fbCall])
          | .error _ =>
            (.err ("Translation failed with preferred (" ++ preferredModel.id
              ++ ") and fallback (" ++ fb.id ++ ") models."), [firstCall, fbCall])
      | none =>
        (.err ("Translation failed with model " ++ preferredModel.id
          ++ ". No fallback available or fallback failed."), [firstCall])

end LegacyOllama

namespace Background

/-- One entry of the language catalog (`{code, name, enabled}`); entries of
`disabledLanguages` in the bundled file carry no `enabled` key, which is
JS-falsy and is modelled as `false`. -/
structure Language where
  code : String
  name : String
  enabled : Bool
deriving DecidableEq

/-- The chromeApi slice of `backendSettings`. -/
structure ChromeApiConfig where
  detectOnly : Bool
  name : String
  description : String
deriving DecidableEq

/-- The `backendSettings` map of the configuration. -/
structure BackendSettings where
  ollama : Ollama.OllamaConfig
  chromeApi : ChromeApiConfig
deriving DecidableEq

/-- The configuration object managed by `src/claudeshot/background.js`.
`defaultTranslationStyle` is `Option` because a wholesale config replacement
(`updateConfig`) may install an object without that key. -/
structure Config where
  version : String
  defaultTargetLanguage : String
  defaultSourceLanguage : String
  defaultTranslationStyle : Option String
  supportedLanguages : List Language
  disabledLanguages : List Language
  activeBackend : String
  backendSettings : BackendSettings
deriving DecidableEq

/-- The hardcoded `defaultConfig` of `src/claudeshot/background.js`
lines 53–84, used whenever loading fails. -/
def defaultConfig : Config where
  version := "1.0"
  defaultTargetLanguage := "English"
  defaultSourceLanguage := "Auto-detect"
  defaultTranslationStyle := some "natural"
  supportedLanguages :=
    [⟨"auto", "Auto-detect", true⟩, ⟨"en", "English", true⟩,
     ⟨"ja", "Japanese", true⟩, ⟨"es", "Spanish", true⟩]
  disabledLanguages := []
  activeBackend := "ollama"
  backendSettings :=
    ⟨⟨[⟨"gemma3:1b", "Gemma 3 1B", "http://localhost:11434/api/generate", true, none⟩],
      [], some "gemma3:1b"⟩,
     ⟨false, "Chrome Translation API", "Uses Chrome's built-in translation capabilities"⟩⟩

/-- A parsed `config.json` object: any top-level key may be missing.  The
shallow spread `{...defaultConfig, ...loadedConfig}` replaces exactly the
keys present in the loaded object. -/
structure PartialConfig where
  version : Option String
  defaultTargetLanguage : Option String
  defaultSourceLanguage : Option String
  defaultTranslationStyle : Option String
  supportedLanguages : Option (List Language)
  disabledLanguages : Option (List Language)
  activeBackend : Option String
  backendSettings : Option BackendSettings
deriving DecidableEq

/-- The shallow merge `{...defaultConfig, ...loadedConfig}` of
`loadAndProcessConfig` (`background.js` line 136). -/
def mergeConfig (base : Config) (p : PartialConfig) : Config where
  version := p.version.getD base.version
  defaultTargetLanguage := p.defaultTargetLanguage.getD base.defaultTargetLanguage
  defaultSourceLanguage := p.defaultSourceLanguage.getD base.defaultSourceLanguage
  defaultTranslationStyle :=
    match p.defaultTranslationStyle with
    | some s => some s
    | none => base.defaultTranslationStyle
  supportedLanguages := p.supportedLanguages.getD base.supportedLanguages
  disabledLanguages := p.disabledLanguages.getD base.disabledLanguages
  activeBackend := p.activeBackend.getD base.activeBackend
  backendSettings := p.backendSettings.getD base.backendSettings

/-- The catalog-merging loop of `background.js` lines 139–146 (repeated at
lines 466–473), the spec's `deriveLanguageCatalog`: start from the supported
sequence and push each disabled entry, marked `enabled: false`, unless an
entry with its code is already in the list. -/
def deriveLanguageCatalog (supported disabled : List Language) : List Language :=
  disabled.foldl
    (fun acc lang =>
      if acc.any (fun l => l.code == lang.code) then acc
      else acc ++ [{ lang with enabled := false }])
    supported

/-- Spec-side description of the disabled-entry suffix, written from the
claim's words: append each disabled entry marked `enabled=false` unless its
code was already seen (in the supported sequence or earlier in the disabled
sequence — first occurrence wins). -/
def mergeDisabledSpec (seen : List String) : List Language → List Language
  | [] => []
  | l :: rest =>
    if seen.any (fun c => c == l.code) then mergeDisabledSpec seen rest
    else { l with enabled := false } :: mergeDisabledSpec (l.code :: seen) rest

/-- The keys of the static `backendModules` map (`background.js`
lines 34–38). -/
def backendModules : List String := ["ollama", "chromeApi"]

/-- The mutable globals of the background script (`config`,
`activeBackendModule`, `supportedLanguagesList`) plus whether
`setupListeners` has run — before that, no message is answered. -/
structure BgState where
  config : Option Config
  activeBackendModule : Option String
  supportedLanguagesList : List Language
  listenersSetUp : Bool
deriving DecidableEq

/-- The globals at script start (`background.js` lines 48–50). -/
def initialState : BgState := ⟨none, none, [], false⟩

/-- `loadAndProcessConfig` (`background.js` lines 123–170) as a state
transformer over the outcome of fetching and parsing `config.json`; the
boolean is `false` when the function threw (after still installing the
default config and rebuilding the language list in its catch block). -/
def loadAndProcessConfig (fetched : Except String PartialConfig) (st : BgState) :
    BgState × Bool :=
  match fetched with
  | .ok p =>
    ({ st with
        config := some (mergeConfig defaultConfig p),
        supportedLanguagesList :=
          deriveLanguageCatalog (mergeConfig defaultConfig p).supportedLanguages
            (mergeConfig defaultConfig p).disabledLanguages }, true)
  | .error _ =>
    ({ st with
        config := some defaultConfig,
        supportedLanguagesList :=
          deriveLanguageCatalog defaultConfig.supportedLanguages
            defaultConfig.disabledLanguages }, false)

/-- `loadActiveBackend` (`background.js` lines 173–217): succeeds when a
config is present, its `activeBackend` is truthy and registered in
`backendModules`; the `initialize` functions of both bundled backends return
normally on any input, so module initialisation never fails. -/
def loadActiveBackend (st : BgState) : BgState × Bool :=
  match st.config with
  | none => (st, false)
  | some cfg =>
    if cfg.activeBackend.isEmpty then (st, false)
    else if backendModules.contains cfg.activeBackend then
      ({ st with activeBackendModule := some cfg.activeBackend }, true)
    else (st, false)

/-- The catch block of `initialize()` (`background.js` lines 96–119):
substitute the default config if none is set, retry loading the (default)
backend, and set up the listeners when a backend module is available. -/
def startupCatch (st : BgState) : BgState :=
  let st' :=
    match st.config with
    | none => { st with config := some defaultConfig }
    | some _ => st
  match st'.activeBackendModule, st'.config with
  | none, some cfg =>
    if cfg.activeBackend.isEmpty then st'
    else
      match loadActiveBackend st' with
      | (st2, true) => { st2 with listenersSetUp := true }
      | (st2, false) => st2
  | none, none => st'
  | some _, _ => { st' with listenersSetUp := true }

/-- `initialize()` of `src/claudeshot/background.js` lines 89–120: load and
process the config, load the active backend, and set up the message
listeners; on any failure fall into the catch block. -/
def startup (fetched : Except String PartialConfig) : BgState :=
  match loadAndProcessConfig fetched initialState with
  | (st1, true) =>
    match loadActiveBackend st1 with
    | (st2, true) => { st2 with listenersSetUp := true }
    | (st2, false) => startupCatch st2
  | (st1, false) => startupCatch st1

/-- The response record of the `getConfig` action (`background.js`
lines 330–336). -/
structure GetConfigResponse where
  success : Bool
  config : Option Config
  supportedLanguages : List Language
deriving DecidableEq

/-- The `getConfig` branch of `onMessageReceived`: it is only reachable once
`setupListeners` has registered the handler — an earlier request gets no
response at all — and then answers with the current config and language
list. -/
def answerGetConfig (st : BgState) : Option GetConfigResponse :=
  if st.listenersSetUp then
    some ⟨true, st.config, st.supportedLanguagesList⟩
  else none

/-- The language list derived from the hardcoded default configuration. -/
def defaultCatalog : List Language :=
  deriveLanguageCatalog defaultConfig.supportedLanguages defaultConfig.disabledLanguages

/-- A translate request record as received by `handleTranslateRequest`; the
`sourceLang` and `style` fields may be missing. -/
structure TranslateRequest where
  text : List Char
  sourceLang : Option String
  targetLang : String
  style : Option String
deriving DecidableEq

/-- The argument tuple passed to the active backend's `translate`. -/
structure BackendArgs where
  text : List Char
  sourceLang : String
  targetLang : String
  style : String
deriving DecidableEq

/-- JS `a || b` on a possibly-missing string: the default is used when the
value is missing or empty (falsy). -/
def jsOrStr (x : Option String) (d : String) : String :=
  match x with
  | none => d
  | some s => if s.isEmpty then d else s

/-- The dispatch of `handleTranslateRequest` (`background.js` lines 373–380):
invoke the active backend's `translate` with the request's text, the source
language defaulted to `"auto"`, the target language unchanged, and the style
defaulted to `config.defaultTranslationStyle || 'natural'`.  (The surrounding
no-backend guard returns an error without invoking any backend and is not
part of the dispatched-arguments claim.) -/
def handleTranslateRequest {α : Type}
    (translateFn : List Char → String → String → String → α)
    (cfg : Config) (req : TranslateRequest) : α :=
  translateFn req.text (jsOrStr req.sourceLang "auto") req.targetLang
    (jsOrStr req.style (jsOrStr cfg.defaultTranslationStyle "natural"))

/-- The `supportedLanguages` sequence of the bundled `config.json`
(`src/unnamed/part_004`). -/
def cjSupported : List Language :=
  [⟨"auto", "Auto-detect", true⟩, ⟨"en", "English", true⟩,
   ⟨"ja", "Japanese", true⟩, ⟨"es", "Spanish", true⟩]

/-- The `disabledLanguages` sequence of the bundled `config.json` (no
`enabled` key: falsy). -/
def cjDisabled : List Language :=
  [⟨"fr", "French", false⟩, ⟨"de", "German", false⟩, ⟨"it", "Italian", false⟩,
   ⟨"pt", "Portuguese", false⟩, ⟨"ru", "Russian", false⟩, ⟨"zh", "Chinese", false⟩,
   ⟨"ko", "Korean", false⟩, ⟨"ar", "Arabic", false⟩, ⟨"hi", "Hindi", false⟩]

end Background

end Translator

namespace Translator

namespace Ollama

theorem getDefaultModel_eq_spec (cfg : OllamaConfig) :
    getDefaultModel cfg = defaultModelSpec cfg := by
  unfold getDefaultModel defaultModelSpec
  cases cfg.models.find? (fun m => m.isDefault) with
  | some m => rfl
  | none => cases cfg.models <;> rfl

/-- **C1.** For every language pair with an explicit entry in the provider's
language-pair preference list whose `preferredModel` id resolves to a model in
the models list, `getPreferredModel` returns exactly that preferred model; and
for every call where the source code is `"auto"` or absent it returns the
default model (the first model flagged as default, else the first model in the
sequence, else none — `defaultModelSpec`). -/
theorem getPreferredModel_honors_pairs (cfg : OllamaConfig) (src : Option String)
    (tgt : String) :
    (∀ pair pid m,
      jsFalsyStr src = false → src ≠ some "auto" →
      cfg.languagePairs.find?
        (fun p => some p.source == src && p.target == tgt) = some pair →
      pair.preferredModel = some pid → pid.isEmpty = false →
      cfg.models.find? (fun mm => mm.id == pid) = some m →
      getPreferredModel cfg src tgt = some m)
    ∧ ((src = none ∨ src = some "auto") →
      getPreferredModel cfg src tgt = defaultModelSpec cfg) := by
  constructor
  · intro pair pid m hfalsy hauto hfind hpref hpid hmodel
    have hbeq : (src == some "auto") = false := by
      cases src with
      | none => rfl
      | some s => exact beq_eq_false_iff_ne.mpr hauto
    unfold getPreferredModel
    rw [hfalsy, hbeq]
    simp [hfind, hpref, hpid, hmodel]
  · intro h
    rcases h with h | h
    · subst h
      exact getDefaultModel_eq_spec cfg
    · subst h
      exact getDefaultModel_eq_spec cfg

/-- Witness for **C1** on the repository's bundled configuration: the
(en → ja) preference selects the Japanese model, and an `"auto"` source
selects the default model. -/
theorem getPreferredModel_honors_pairs_witness :
    getPreferredModel configJson (some "en") "ja" = some jpnModel
    ∧ getPreferredModel configJson (some "auto") "en" = defaultModelSpec configJson := by
  constructor
  · exact (getPreferredModel_honors_pairs configJson (some "en") "ja").1
      ⟨"en", "ja", some jpnModel.id⟩ jpnModel.id jpnModel
      (by decide) (by decide) (by decide) rfl (by decide) (by decide)
  · exact (getPreferredModel_honors_pairs configJson (some "auto") "en").2 (Or.inr rfl)

/-- **C2.** When the primary attempt with the preferred model fails and the
resolved fallback model has a different id, `translate` makes exactly one
retry with the fallback model using a freshly formatted prompt, and on
fallback success the result is a success with `usedFallback = true` and
`modelUsed` equal to the fallback model's id. -/
theorem translate_fallback_success (cfg : OllamaConfig) (api : ApiOracle)
    (text : List Char) (src : Option String) (tgt : String) (style : Option String)
    (pm fb : Model) (e : String) (t : List Char)
    (hmodels : cfg.models.isEmpty = false)
    (hp : getPreferredModel cfg src tgt = some pm)
    (hf : getFallbackModel cfg = some fb)
    (hne : fb.id ≠ pm.id)
    (hfail : callOllamaApi api pm.id pm.endpoint
      (formatPrompt pm (actualSourceLang src) tgt text style) = .error e)
    (hok : callOllamaApi api fb.id fb.endpoint
      (formatPrompt fb (actualSourceLang src) tgt text style) = .ok t) :
    translate cfg api text src tgt style =
      (.ok t true fb.id,
       [⟨pm.id, pm.endpoint, formatPrompt pm (actualSourceLang src) tgt text style⟩,
        ⟨fb.id, fb.endpoint, formatPrompt fb (actualSourceLang src) tgt text style⟩]) := by
  have hbeq : (fb.id == pm.id) = false := beq_eq_false_iff_ne.mpr hne
  unfold translate
  rw [hmodels]
  simp only [Bool.false_eq_true, if_false]
  rw [hp]
  simp only [hf, hfail, hbeq, Bool.false_eq_true, if_false, hok]

/-- Witness for **C2** on the bundled configuration: for (en → ja) the
preferred Japanese model is unreachable, the `gemma3:1b` fallback answers,
and the result records the fallback use. -/
theorem translate_fallback_success_witness :
    translate configJson gemmaOnlyApi "Hello".data (some "en") "ja" (some "natural") =
      (.ok "Hola".data true "gemma3:1b",
       [⟨jpnModel.id, jpnModel.endpoint,
          formatPrompt jpnModel (actualSourceLang (some "en")) "ja" "Hello".data
            (some "natural")⟩,
        ⟨gemmaModel.id, gemmaModel.endpoint,
          formatPrompt gemmaModel (actualSourceLang (some "en")) "ja" "Hello".data
            (some "natural")⟩]) :=
  translate_fallback_success configJson gemmaOnlyApi "Hello".data (some "en") "ja"
    (some "natural") jpnModel gemmaModel "connection refused" "Hola".data
    rfl rfl rfl (by decide) rfl rfl

/-- **C3.** When the preferred and the resolved fallback model have the same
identifier, `translate` makes exactly one attempt (no duplicate retry with
the same model), and when that attempt fails it produces a single failure
result carrying an error message. -/
theorem translate_same_id_single_attempt (cfg : OllamaConfig) (api : ApiOracle)
    (text : List Char) (src : Option String) (tgt : String) (style : Option String)
    (pm fb : Model)
    (hmodels : cfg.models.isEmpty = false)
    (hp : getPreferredModel cfg src tgt = some pm)
    (hf : getFallbackModel cfg = some fb)
    (heq : fb.id = pm.id) :
    (translate cfg api text src tgt style).2 =
      [⟨pm.id, pm.endpoint, formatPrompt pm (actualSourceLang src) tgt text style⟩]
    ∧ (∀ e, callOllamaApi api pm.id pm.endpoint
        (formatPrompt pm (actualSourceLang src) tgt text style) = .error e →
        (translate cfg api text src tgt style).1 =
          .err ("Translation failed with model " ++ pm.id ++ ". Error: " ++ e)) := by
  have hbeq : (fb.id == pm.id) = true := beq_iff_eq.mpr heq
  cases hc : callOllamaApi api pm.id pm.endpoint
      (formatPrompt pm (actualSourceLang src) tgt text style) with
  | ok t =>
    constructor
    · unfold translate
      rw [hmodels]
      simp only [Bool.false_eq_true, if_false]
      rw [hp]
      simp only [hc]
    · intro e he
      exact absurd he (by simp)
  | error e0 =>
    have hres : translate cfg api text src tgt style =
        (.err ("Translation failed with model " ++ pm.id ++ ". Error: " ++ e0),
         [⟨pm.id, pm.endpoint, formatPrompt pm (actualSourceLang src) tgt text style⟩]) := by
      unfold translate
      rw [hmodels]
      simp only [Bool.false_eq_true, if_false]
      rw [hp]
      simp only [hf, hc, hbeq, if_true]
    constructor
    · rw [hres]
    · intro e he
      have : e0 = e := by
        simpa using he
      subst this
      rw [hres]

/-- Witness for **C3** on the bundled configuration: for (en → es) both the
preferred and the fallback model are `gemma3:1b`; with an unreachable server
exactly one call is made and a single failure result is produced. -/
theorem translate_same_id_single_attempt_witness :
    (translate configJson refusingApi "Hello".data (some "en") "es" (some "natural")).2 =
      [⟨gemmaModel.id, gemmaModel.endpoint,
         formatPrompt gemmaModel (actualSourceLang (some "en")) "es" "Hello".data
           (some "natural")⟩]
    ∧ (translate configJson refusingApi "Hello".data (some "en") "es" (some "natural")).1 =
        .err ("Translation failed with model " ++ gemmaModel.id
          ++ ". Error: " ++ "connection refused") :=
  have h := translate_same_id_single_attempt configJson refusingApi "Hello".data
    (some "en") "es" (some "natural") gemmaModel gemmaModel rfl rfl rfl rfl
  ⟨h.1, h.2 "connection refused" rfl⟩

/-- **C4.** When both the preferred attempt and the (distinct) fallback
attempt fail, `translate` returns a single aggregated failure result whose
error text contains both the preferred id and the fallback id. -/
theorem translate_both_fail_aggregated (cfg : OllamaConfig) (api : ApiOracle)
    (text : List Char) (src : Option String) (tgt : String) (style : Option String)
    (pm fb : Model) (e1 e2 : String)
    (hmodels : cfg.models.isEmpty = false)
    (hp : getPreferredModel cfg src tgt = some pm)
    (hf : getFallbackModel cfg = some fb)
    (hne : fb.id ≠ pm.id)
    (hfail1 : callOllamaApi api pm.id pm.endpoint
      (formatPrompt pm (actualSourceLang src) tgt text style) = .error e1)
    (hfail2 : callOllamaApi api fb.id fb.endpoint
      (formatPrompt fb (actualSourceLang src) tgt text style) = .error e2) :
    translate cfg api text src tgt style =
      (.err ("Translation failed with both preferred (" ++ pm.id
        ++ ") and fallback (" ++ fb.id ++ ") models."),
       [⟨pm.id, pm.endpoint, formatPrompt pm (actualSourceLang src) tgt text style⟩,
        ⟨fb.id, fb.endpoint, formatPrompt fb (actualSourceLang src) tgt text style⟩])
    ∧ ∃ a b c, ("Translation failed with both preferred (" ++ pm.id
        ++ ") and fallback (" ++ fb.id ++ ") models.")
        = a ++ pm.id ++ b ++ fb.id ++ c := by
  have hbeq : (fb.id == pm.id) = false := beq_eq_false_iff_ne.mpr hne
  constructor
  · unfold translate
    rw [hmodels]
    simp only [Bool.false_eq_true, if_false]
    rw [hp]
    simp only [hf, hfail1, hbeq, Bool.false_eq_true, if_false, hfail2]
  · exact ⟨"Translation failed with both preferred (", ") and fallback (",
      ") models.", rfl⟩

/-- Witness for **C4** on the bundled configuration: for (en → ja) with an
unreachable server both the Japanese model and the `gemma3:1b` fallback fail
and one aggregated error names both. -/
theorem translate_both_fail_aggregated_witness :
    translate configJson refusingApi "Hello".data (some "en") "ja" (some "natural") =
      (.err ("Translation failed with both preferred (" ++ jpnModel.id
        ++ ") and fallback (" ++ gemmaModel.id ++ ") models."),
       [⟨jpnModel.id, jpnModel.endpoint,
          formatPrompt jpnModel (actualSourceLang (some "en")) "ja" "Hello".data
            (some "natural")⟩,
        ⟨gemmaModel.id, gemmaModel.endpoint,
          formatPrompt gemmaModel (actualSourceLang (some "en")) "ja" "Hello".data
            (some "natural")⟩])
    ∧ ∃ a b c, ("Translation failed with both preferred (" ++ jpnModel.id
        ++ ") and fallback (" ++ gemmaModel.id ++ ") models.")
        = a ++ jpnModel.id ++ b ++ gemmaModel.id ++ c :=
  translate_both_fail_aggregated configJson refusingApi "Hello".data (some "en") "ja"
    (some "natural") jpnModel gemmaModel "connection refused" "connection refused"
    rfl rfl rfl (by decide) rfl rfl

/-- Case-insensitive prefixing is downward-closed: two case-insensitive
prefixes of the same string are case-insensitive prefixes of one another
(shorter of longer). -/
theorem ciStarts_common : ∀ (p₁ p₂ s : List Char), ciStarts p₁ s = true →
    ciStarts p₂ s = true → p₁.length ≤ p₂.length → ciStarts p₁ p₂ = true
  | [], _, _, _, _, _ => rfl
  | a :: as, p₂, s, h1, h2, hlen => by
    cases s with
    | nil => simp [ciStarts] at h1
    | cons b bs =>
      cases p₂ with
      | nil => simp at hlen
      | cons c cs =>
        simp only [ciStarts, Bool.and_eq_true, beq_iff_eq] at h1 h2 ⊢
        obtain ⟨hab, h1'⟩ := h1
        obtain ⟨hcb, h2'⟩ := h2
        exact ⟨hab.trans hcb.symm,
          ciStarts_common as cs bs h1' h2' (Nat.succ_le_succ_iff.mp hlen)⟩

/-- No two distinct preamble phrases can match the same string at the start:
none of the four phrases is a case-insensitive prefix of another, so the
alternation order of the regex is immaterial. -/
theorem preamble_phrase_unique (p q s : List Char)
    (hp : p ∈ preamblePhrases) (hq : q ∈ preamblePhrases)
    (h1 : ciStarts p s = true) (h2 : ciStarts q s = true) : p = q := by
  simp only [preamblePhrases, List.mem_cons, List.not_mem_nil, or_false] at hp hq
  rcases Nat.le_total p.length q.length with hle | hle
  · have h := ciStarts_common p q s h1 h2 hle
    rcases hp with rfl | rfl | rfl | rfl <;> rcases hq with rfl | rfl | rfl | rfl <;>
      first
      | rfl
      | exact absurd h (by decide)
  · have h := ciStarts_common q p s h2 h1 hle
    rcases hp with rfl | rfl | rfl | rfl <;> rcases hq with rfl | rfl | rfl | rfl <;>
      first
      | rfl
      | exact absurd h (by decide)

/-- `List.find?` returns the unique element satisfying the predicate. -/
theorem find?_eq_of_unique {α : Type} (P : α → Bool) :
    ∀ (l : List α) (x : α), x ∈ l → P x = true →
      (∀ y ∈ l, P y = true → y = x) → l.find? P = some x
  | [], x, hx, _, _ => absurd hx (List.not_mem_nil x)
  | a :: l, x, hx, hPx, huniq => by
    by_cases ha : P a = true
    · rw [List.find?_cons_of_pos _ ha]
      exact congrArg some (huniq a (List.mem_cons_self a l) ha)
    · rw [List.find?_cons_of_neg _ ha]
      have hx' : x ∈ l := by
        rcases List.mem_cons.mp hx with rfl | h
        · exact absurd hPx ha
        · exact h
      exact find?_eq_of_unique P l x hx' hPx
        (fun y hy hPy => huniq y (List.mem_cons_of_mem a hy) hPy)

/-- When a preamble phrase matches at the start (case-insensitively), the
preamble pass drops exactly that phrase's length. -/
theorem stripPreamble_of_ciStarts (p s : List Char) (hp : p ∈ preamblePhrases)
    (h : ciStarts p s = true) : stripPreamble s = s.drop p.length := by
  unfold stripPreamble
  rw [find?_eq_of_unique (fun q => ciStarts q s) preamblePhrases p hp h
    (fun q hq hPq => preamble_phrase_unique q p s hq hp hPq h)]

/-- Every list is a case-insensitive prefix of itself extended. -/
theorem ciStarts_append_self : ∀ (p x : List Char), ciStarts p (p ++ x) = true
  | [], _ => rfl
  | a :: as, x => by
    show (a.toLower == a.toLower && ciStarts as (as ++ x)) = true
    rw [beq_self_eq_true, Bool.true_and]
    exact ciStarts_append_self as x

/-- **C5.** The response-cleaning step strips exactly one leading preamble
phrase (case-insensitive, from the fixed four-phrase set) and exactly one
pair of leading/trailing quote characters, and never strips more than one of
either: (1) a matching phrase is removed and the rest goes through trim and
the single quote pass; (2) a second phrase immediately following the first is
*not* removed; (3) one surrounding quote pair is removed entirely; (4) inner
quotes of a doubly-quoted string survive the single pass. -/
theorem cleanResponse_strips_once :
    (∀ p raw, p ∈ preamblePhrases → ciStarts p raw = true →
      cleanResponse raw = stripQuotePair (trimChars (raw.drop p.length)))
    ∧ (∀ p q rest, p ∈ preamblePhrases → q ∈ preamblePhrases →
      cleanResponse (p ++ (q ++ rest)) = stripQuotePair (trimChars (q ++ rest)))
    ∧ (∀ a b mid, isQuoteChar a = true → isQuoteChar b = true →
      stripQuotePair (a :: (mid ++ [b])) = mid)
    ∧ (∀ a b c d mid, isQuoteChar a = true → isQuoteChar b = true →
      isQuoteChar c = true → isQuoteChar d = true →
      stripQuotePair (a :: b :: (mid ++ [c, d])) = b :: (mid ++ [c])) := by
  have hlead : ∀ (a : Char) (l : List Char), isQuoteChar a = true →
      stripLeadingQuote (a :: l) = l := by
    intro a l ha
    show (if isQuoteChar a = true then l else a :: l) = l
    rw [if_pos ha]
  have htrail : ∀ (l : List Char) (b : Char), isQuoteChar b = true →
      stripTrailingQuote (l ++ [b]) = l := by
    intro l b hb
    unfold stripTrailingQuote
    rw [List.getLast?_concat]
    simp only [Option.any_some, hb, if_true, List.dropLast_concat]
  refine ⟨?_, ?_, ?_, ?_⟩
  · intro p raw hp h
    unfold cleanResponse
    rw [stripPreamble_of_ciStarts p raw hp h]
  · intro p q rest hp hq
    unfold cleanResponse
    rw [stripPreamble_of_ciStarts p (p ++ (q ++ rest)) hp
      (ciStarts_append_self p (q ++ rest))]
    rw [List.drop_left]
  · intro a b mid ha hb
    unfold stripQuotePair
    rw [hlead a (mid ++ [b]) ha, htrail mid b hb]
  · intro a b c d mid ha hb hc hd
    unfold stripQuotePair
    rw [hlead a (b :: (mid ++ [c, d])) ha]
    have e1 : b :: (mid ++ [c, d]) = (b :: (mid ++ [c])) ++ [d] := by
      simp
    rw [e1, htrail (b :: (mid ++ [c])) d hd]

/-- Witness for **C5**: a mixed-case `Translation:` preamble is stripped
(case-insensitively) before the trim and quote pass, and a quote pair around
`Bonjour` is removed. -/
theorem cleanResponse_strips_once_witness :
    cleanResponse ("TRANSLATION: ".data ++ [dquoteChar] ++ "Bonjour".data
        ++ [dquoteChar])
      = stripQuotePair (trimChars ((("TRANSLATION: ".data ++ [dquoteChar]
        ++ "Bonjour".data ++ [dquoteChar])).drop ("Translation:".data).length))
    ∧ stripQuotePair (dquoteChar :: ("Bonjour".data ++ [squoteChar]))
      = "Bonjour".data := by
  constructor
  · exact cleanResponse_strips_once.1 "Translation:".data _ (by decide) (by decide)
  · exact cleanResponse_strips_once.2.2.1 dquoteChar squoteChar "Bonjour".data
      (by decide) (by decide)

theorem inert_braceFree {l : List Char} (h : inert l = true) : braceFree l = true := by
  unfold inert at h
  rw [Bool.and_eq_true] at h
  exact h.1

theorem inert_dollarFree {l : List Char} (h : inert l = true) : dollarFree l = true := by
  unfold inert at h
  rw [Bool.and_eq_true] at h
  exact h.2

theorem braceFree_mem {l : List Char} (h : braceFree l = true) :
    ∀ c ∈ l, ¬(c = lbraceChar) := by
  intro c hc he
  have hall := List.all_eq_true.mp h c hc
  rw [he] at hall
  exact absurd hall (by decide)

/-- Dollar substitution is the identity on dollar-free replacement strings. -/
theorem dollarSubst_id (m b a : List Char) : ∀ l : List Char, dollarFree l = true →
    dollarSubst m b a l = l
  | [], _ => rfl
  | c :: rest, h => by
    have h' : (!(c == '$') && rest.all (fun x => !(x == '$'))) = true := h
    rw [Bool.and_eq_true] at h'
    obtain ⟨hc, hrest⟩ := h'
    have hc' : (c == '$') = false := by
      cases hq : (c == '$')
      · rfl
      · rw [hq] at hc
        exact absurd hc (by decide)
    conv_lhs => rw [dollarSubst.eq_def]
    dsimp only []
    rw [hc']
    simp only [Bool.false_eq_true, if_false]
    rw [dollarSubst_id m b a rest hrest]

/-- Every list is a literal prefix of itself extended. -/
theorem strStarts_append_self : ∀ (p x : List Char), strStarts p (p ++ x) = true
  | [], _ => rfl
  | a :: as, x => by
    show (a == a && strStarts as (as ++ x)) = true
    rw [beq_self_eq_true, Bool.true_and]
    exact strStarts_append_self as x

/-- When the first character of the pattern appears nowhere in `X`, the first
occurrence of the pattern in `X ++ pat ++ Y` is exactly after `X`. -/
theorem splitFirst_append : ∀ (X pat Y : List Char) (h : Char),
    pat.head? = some h → (∀ c ∈ X, ¬(c = h)) →
    splitFirst pat (X ++ (pat ++ Y)) = some (X, Y)
  | [], pat, Y, h, hh, _ => by
    cases pat with
    | nil => simp at hh
    | cons p0 pt =>
      rw [List.nil_append, List.cons_append]
      simp only [splitFirst]
      have hss : strStarts (p0 :: pt) (p0 :: (pt ++ Y)) = true :=
        strStarts_append_self (p0 :: pt) Y
      rw [hss]
      simp only [if_true]
      have hdrop : (p0 :: (pt ++ Y)).drop (p0 :: pt).length = Y := by
        rw [← List.cons_append]
        exact List.drop_left _ _
      rw [hdrop]
  | x :: X', pat, Y, h, hh, hX => by
    cases pat with
    | nil => simp at hh
    | cons p0 pt =>
      have hp0 : p0 = h := by
        simpa using hh
      have hx : ¬(x = h) := hX x (List.mem_cons_self x X')
      have hpx : (p0 == x) = false :=
        beq_eq_false_iff_ne.mpr (fun he => hx (he.symm.trans hp0))
      rw [List.cons_append]
      simp only [splitFirst]
      have hcond : strStarts (p0 :: pt) (x :: (X' ++ ((p0 :: pt) ++ Y))) = false := by
        simp only [strStarts]
        rw [hpx, Bool.false_and]
      rw [hcond]
      simp only [Bool.false_eq_true, if_false]
      rw [splitFirst_append X' (p0 :: pt) Y h hh
        (fun c hc => hX c (List.mem_cons_of_mem x hc))]

/-- The composite effect of one `replace` call when the pattern occurs after
a segment free of the pattern's first character and the replacement is
dollar-free: pure in-place substitution. -/
theorem jsReplaceFirst_append (s pat X Y repl : List Char) (h : Char)
    (hs : s = X ++ (pat ++ Y)) (hh : pat.head? = some h)
    (hX : ∀ c ∈ X, ¬(c = h)) (hrepl : dollarFree repl = true) :
    jsReplaceFirst s pat repl = X ++ (repl ++ Y) := by
  subst hs
  unfold jsReplaceFirst
  rw [splitFirst_append X pat Y h hh hX]
  simp [dollarSubst_id pat X Y repl hrepl, List.append_assoc]

/-- **C7** (amended). For every template that decomposes as
`A ++ {sourceLanguage} ++ B ++ {targetLanguage} ++ C ++ {text} ++ D` with
each placeholder appearing exactly once (the segments contain no opening
brace), and for all *inert* substituted values (no opening brace — so the
value cannot contain or recreate a placeholder — and no dollar character — so
JS dollar substitution is inactive), `formatPrompt` produces the template
with each value exactly once at its placeholder's position and byte-identical
to the template everywhere else. -/
theorem formatPrompt_inplace (m : Model) (style : Option String)
    (A B C D : List Char) (src tgt : String) (text : List Char)
    (htpl : selectTemplate m style =
      A ++ (srcPlaceholder ++ (B ++ (tgtPlaceholder ++ (C ++ (textPlaceholder ++ D))))))
    (hsrc : displaySourceLang src = src)
    (hA : braceFree A = true) (hB : braceFree B = true) (hC : braceFree C = true)
    (hsv : inert src.data = true) (htv : inert tgt.data = true)
    (htx : inert text = true) :
    formatPrompt m src tgt text style =
      A ++ (src.data ++ (B ++ (tgt.data ++ (C ++ (text ++ D))))) := by
  have hAmem := braceFree_mem hA
  have hBmem := braceFree_mem hB
  have hCmem := braceFree_mem hC
  have hsrcmem := braceFree_mem (inert_braceFree hsv)
  have htgtmem := braceFree_mem (inert_braceFree htv)
  unfold formatPrompt
  rw [hsrc]
  rw [jsReplaceFirst_append (selectTemplate m style) srcPlaceholder A
    (B ++ (tgtPlaceholder ++ (C ++ (textPlaceholder ++ D)))) src.data lbraceChar htpl
    (by decide) hAmem (inert_dollarFree hsv)]
  rw [jsReplaceFirst_append _ tgtPlaceholder (A ++ (src.data ++ B))
    (C ++ (textPlaceholder ++ D)) tgt.data lbraceChar
    (by simp [List.append_assoc]) (by decide)
    (fun c hc => by
      rcases List.mem_append.mp hc with h1 | h1
      · exact hAmem c h1
      · rcases List.mem_append.mp h1 with h2 | h2
        · exact hsrcmem c h2
        · exact hBmem c h2)
    (inert_dollarFree htv)]
  rw [jsReplaceFirst_append _ textPlaceholder
    ((A ++ (src.data ++ B)) ++ (tgt.data ++ C)) D text lbraceChar
    (by simp [List.append_assoc]) (by decide)
    (fun c hc => by
      rcases List.mem_append.mp hc with h1 | h1
      · rcases List.mem_append.mp h1 with h2 | h2
        · exact hAmem c h2
        · rcases List.mem_append.mp h2 with h3 | h3
          · exact hsrcmem c h3
          · exact hBmem c h3
      · rcases List.mem_append.mp h1 with h2 | h2
        · exact htgtmem c h2
        · exact hCmem c h2)
    (inert_dollarFree htx)]
  simp [List.append_assoc]

/-- **C7 counterexample.** The claim quantifies over *all* substituted
values, but a source value that itself contains a placeholder is re-replaced
by the later substitution: with template `{sourceLanguage}|{targetLanguage}|{text}`,
source value `{targetLanguage}`, target `T` and text `x`, the output is
`T|{targetLanguage}|x` rather than the claimed in-place result
`{targetLanguage}|T|x`. -/
theorem formatPrompt_value_collision :
    formatPrompt pipeModel "{targetLanguage}" "T" "x".data (some "natural")
      = "T|{targetLanguage}|x".data
    ∧ ¬ formatPrompt pipeModel "{targetLanguage}" "T" "x".data (some "natural")
      = "{targetLanguage}|T|x".data := ⟨by decide, by decide⟩

/-- Witness for **C7** on the real `gemma3:1b` natural template with inert
values. -/
theorem formatPrompt_inplace_witness :
    formatPrompt gemmaModel "English" "Japanese" "Hello".data (some "natural")
      = "Translate the following text from ".data ++ ("English".data ++ (" to ".data
        ++ ("Japanese".data ++ (": \"".data ++ ("Hello".data
        ++ "\". Provide only the translation without any additional commentary.".data))))) :=
  formatPrompt_inplace gemmaModel (some "natural")
    "Translate the following text from ".data " to ".data ": \"".data
    "\". Provide only the translation without any additional commentary.".data
    "English" "Japanese" "Hello".data
    (by decide) (by decide) (by decide) (by decide) (by decide) (by decide)
    (by decide) (by decide)

/-- **C6** (for the current provider copy, `src/unnamed/part_003`): a raw
response that cleans to the empty string makes the attempt fail with the
empty-response error; `callOllamaApi` never returns a successful empty
translation; and an empty-cleaning primary response triggers the one-shot
fallback policy (a second, fallback call is made). -/
theorem emptyResponse_is_failure (api : ApiOracle) (cfg : OllamaConfig)
    (modelId endpoint : String) (prompt text raw : List Char) (src : Option String)
    (tgt : String) (style : Option String) (pm fb : Model) :
    (api modelId endpoint prompt = .ok raw → cleanResponse raw = [] →
      callOllamaApi api modelId endpoint prompt =
        .error "Received empty translation from Ollama.")
    ∧ (∀ t, callOllamaApi api modelId endpoint prompt = .ok t → t ≠ [])
    ∧ (cfg.models.isEmpty = false →
       getPreferredModel cfg src tgt = some pm →
       getFallbackModel cfg = some fb → fb.id ≠ pm.id →
       api pm.id pm.endpoint (formatPrompt pm (actualSourceLang src) tgt text style)
         = .ok raw →
       cleanResponse raw = [] →
       (translate cfg api text src tgt style).2.length = 2) := by
  refine ⟨?_, ?_, ?_⟩
  · intro h1 h2
    unfold callOllamaApi
    rw [h1]
    simp only [h2, List.isEmpty_nil, if_true]
  · intro t ht
    unfold callOllamaApi at ht
    cases hapi : api modelId endpoint prompt with
    | httpError m =>
      rw [hapi] at ht
      exact absurd ht (by simp)
    | ok raw' =>
      rw [hapi] at ht
      dsimp only [] at ht
      by_cases hemp : (cleanResponse raw').isEmpty = true
      · rw [if_pos hemp] at ht
        exact absurd ht (by simp)
      · rw [if_neg hemp] at ht
        have hinj := Except.ok.inj ht
        intro hteq
        apply hemp
        rw [hinj, hteq]
        rfl
  · intro hm hp hf hne hapi hclean
    have hfail : callOllamaApi api pm.id pm.endpoint
        (formatPrompt pm (actualSourceLang src) tgt text style) =
        .error "Received empty translation from Ollama." := by
      unfold callOllamaApi
      rw [hapi]
      simp only [hclean, List.isEmpty_nil, if_true]
    have hbeq : (fb.id == pm.id) = false := beq_eq_false_iff_ne.mpr hne
    unfold translate
    rw [hm]
    simp only [Bool.false_eq_true, if_false]
    rw [hp]
    simp only [hf, hfail, hbeq, Bool.false_eq_true, if_false]
    cases hfb : callOllamaApi api fb.id fb.endpoint
        (formatPrompt fb (actualSourceLang src) tgt text style) with
    | ok t => simp [hfb]
    | error e => simp [hfb]

/-- Witness for **C6**: a server answering with two double quotes (which
clean to nothing) yields the empty-response error, and on the bundled
configuration the empty primary response triggers the fallback attempt. -/
theorem emptyResponse_is_failure_witness :
    callOllamaApi emptyQuotesApi "gemma3:1b" "http://localhost:11434/api/generate"
      "Ping".data = .error "Received empty translation from Ollama."
    ∧ (translate configJson emptyQuotesApi "Hello".data (some "en") "ja"
        (some "natural")).2.length = 2 :=
  have h := emptyResponse_is_failure emptyQuotesApi configJson "gemma3:1b"
    "http://localhost:11434/api/generate" "Ping".data "Hello".data
    [dquoteChar, dquoteChar] (some "en") "ja" (some "natural") jpnModel gemmaModel
  ⟨h.1 rfl (by decide), h.2.2 rfl rfl rfl (by decide) rfl (by decide)⟩

end Ollama

namespace LegacyOllama

/-- **C6 counterexample.** In the older provider copy kept in the repository
(`src/unnamed/part_002`), an empty post-cleanup response is *not* treated as a
failure: with the hardcoded configuration and a server whose response body is
a pair of double quotes (cleaning to the empty string), `translate` for
(en → es) returns a *success* whose translation is the empty string, with no
fallback, refuting the claim as stated over every local-model provider of the
repository. -/
theorem legacy_empty_response_success :
    (LegacyOllama.translate legacyConfig Ollama.emptyQuotesApi "Hello".data
      (some "en") "es" (some "natural")).1
      = Ollama.TranslateResult.ok [] false "gemma3:1b" := by
  rfl

end LegacyOllama

namespace Background

/-- The catalog-merging fold equals the supported list followed by the
spec-side disabled suffix, for any `seen` set of codes that agrees with the
accumulator. -/
theorem foldl_mergeDisabled : ∀ (disabled acc : List Language) (seen : List String),
    (∀ c : String, seen.any (fun s => s == c) = acc.any (fun l => l.code == c)) →
    disabled.foldl
      (fun acc lang =>
        if acc.any (fun l => l.code == lang.code) then acc
        else acc ++ [{ lang with enabled := false }]) acc
      = acc ++ mergeDisabledSpec seen disabled
  | [], acc, seen, _ => by simp [mergeDisabledSpec]
  | l :: rest, acc, seen, hinv => by
    rw [List.foldl_cons]
    simp only [mergeDisabledSpec]
    rw [← hinv l.code]
    cases hc : seen.any (fun s => s == l.code) with
    | true =>
      rw [if_pos rfl, if_pos rfl]
      exact foldl_mergeDisabled rest acc seen hinv
    | false =>
      rw [if_neg (by simp), if_neg (by simp)]
      have hrec := foldl_mergeDisabled rest (acc ++ [{ l with enabled := false }])
        (l.code :: seen) (fun c => by
          rw [List.any_cons, List.any_append, ← hinv c]
          simp [Bool.or_comm])
      rw [hrec]
      simp

/-- Every entry of the spec-side disabled suffix is marked disabled. -/
theorem mergeDisabledSpec_enabled_false : ∀ (seen : List String) (d : List Language),
    ∀ l ∈ mergeDisabledSpec seen d, l.enabled = false
  | _, [] => by simp [mergeDisabledSpec]
  | seen, l :: rest => by
    simp only [mergeDisabledSpec]
    cases hc : seen.any (fun c => c == l.code) with
    | true =>
      rw [if_pos rfl]
      exact mergeDisabledSpec_enabled_false seen rest
    | false =>
      rw [if_neg (by simp)]
      intro x hx
      rcases List.mem_cons.mp hx with rfl | hx'
      · rfl
      · exact mergeDisabledSpec_enabled_false (l.code :: seen) rest x hx'

/-- **C9.** The derived language catalog lists the supported entries first,
unchanged and in their original order, then appends the disabled entries
marked `enabled = false`; duplicates by code are rejected with the first
occurrence winning — a disabled entry whose code already appears among the
supported codes (or earlier among the appended disabled codes) is not
appended.  `mergeDisabledSpec` is the spec-side description of that suffix. -/
theorem deriveLanguageCatalog_spec (supported disabled : List Language) :
    deriveLanguageCatalog supported disabled =
      supported ++ mergeDisabledSpec (supported.map Language.code) disabled
    ∧ ∀ l ∈ mergeDisabledSpec (supported.map Language.code) disabled,
        l.enabled = false := by
  constructor
  · unfold deriveLanguageCatalog
    exact foldl_mergeDisabled disabled supported (supported.map Language.code)
      (fun c => by
        induction supported with
        | nil => rfl
        | cons a as ih => simp only [List.map_cons, List.any_cons, ih])
  · exact mergeDisabledSpec_enabled_false _ disabled

/-- Witness for **C9** on the bundled `config.json` language lists. -/
theorem deriveLanguageCatalog_spec_witness :
    deriveLanguageCatalog cjSupported cjDisabled =
      cjSupported ++ mergeDisabledSpec (cjSupported.map Language.code) cjDisabled
    ∧ Language.enabled ⟨"fr", "French", false⟩ = false :=
  ⟨(deriveLanguageCatalog_spec cjSupported cjDisabled).1,
   (deriveLanguageCatalog_spec cjSupported cjDisabled).2
     ⟨"fr", "French", false⟩ (by decide)⟩

/-- **C8.** A `getConfig` request answered before any configuration load has
completed — the only such path is the one where fetching/parsing
`config.json` failed, since the handler is not even registered until the
startup sequence reaches `setupListeners` — is answered with the hardcoded
default configuration (a total record, whose optional
`defaultTranslationStyle` field is present) and the default-derived language
list; its config field is never missing. -/
theorem getConfig_before_load (fetched : Except String PartialConfig) (e : String)
    (hfail : fetched = .error e) :
    answerGetConfig (startup fetched) =
      some ⟨true, some defaultConfig, defaultCatalog⟩
    ∧ (∀ r, answerGetConfig (startup fetched) = some r →
        r.config = some defaultConfig ∧ r.config ≠ none)
    ∧ defaultConfig.defaultTranslationStyle = some "natural" := by
  subst hfail
  have hcomp : answerGetConfig (startup (Except.error e)) =
      some ⟨true, some defaultConfig, defaultCatalog⟩ := rfl
  refine ⟨hcomp, ?_, rfl⟩
  intro r hr
  rw [hcomp] at hr
  have h := Option.some.inj hr
  rw [← h]
  exact ⟨rfl, by simp⟩

/-- Witness for **C8**: a concrete failed fetch. -/
theorem getConfig_before_load_witness :
    answerGetConfig (startup (Except.error "fetch failed")) =
      some ⟨true, some defaultConfig, defaultCatalog⟩
    ∧ defaultConfig.defaultTranslationStyle = some "natural" :=
  have h := getConfig_before_load (Except.error "fetch failed") "fetch failed" rfl
  ⟨h.1, h.2.2⟩

/-- **C10.** The translate dispatch passes `text` and `targetLang` through
unchanged, replaces a missing or empty `sourceLang` by `"auto"` (and keeps a
non-empty one), and replaces a missing or empty `style` by the
configuration's `defaultTranslationStyle` defaulted to `"natural"` (and keeps
a non-empty one); any backend function is invoked with exactly these
arguments. -/
theorem handleTranslateRequest_normalizes (cfg : Config) (req : TranslateRequest) :
    ((handleTranslateRequest BackendArgs.mk cfg req).text = req.text
      ∧ (handleTranslateRequest BackendArgs.mk cfg req).targetLang = req.targetLang)
    ∧ ((req.sourceLang = none ∨ req.sourceLang = some "") →
        (handleTranslateRequest BackendArgs.mk cfg req).sourceLang = "auto")
    ∧ (∀ s, req.sourceLang = some s → ¬ s = "" →
        (handleTranslateRequest BackendArgs.mk cfg req).sourceLang = s)
    ∧ ((req.style = none ∨ req.style = some "") →
        (handleTranslateRequest BackendArgs.mk cfg req).style =
          jsOrStr cfg.defaultTranslationStyle "natural")
    ∧ (∀ s, req.style = some s → ¬ s = "" →
        (handleTranslateRequest BackendArgs.mk cfg req).style = s)
    ∧ (∀ (α : Type) (f : List Char → String → String → String → α),
        handleTranslateRequest f cfg req =
          f (handleTranslateRequest BackendArgs.mk cfg req).text
            (handleTranslateRequest BackendArgs.mk cfg req).sourceLang
            (handleTranslateRequest BackendArgs.mk cfg req).targetLang
            (handleTranslateRequest BackendArgs.mk cfg req).style) := by
  have hempty : ∀ (s : String), ¬ s = "" → s.isEmpty = false := by
    intro s hne
    cases hq : s.isEmpty
    · rfl
    · exact absurd ((String.isEmpty_iff s).mp hq) hne
  refine ⟨⟨rfl, rfl⟩, ?_, ?_, ?_, ?_, ?_⟩
  · intro h
    rcases h with h | h
    · show jsOrStr req.sourceLang "auto" = "auto"
      rw [h]
      rfl
    · show jsOrStr req.sourceLang "auto" = "auto"
      rw [h]
      rfl
  · intro s hs hne
    show jsOrStr req.sourceLang "auto" = s
    rw [hs]
    show (if s.isEmpty = true then "auto" else s) = s
    rw [hempty s hne]
    simp
  · intro h
    rcases h with h | h
    · show jsOrStr req.style (jsOrStr cfg.defaultTranslationStyle "natural") =
        jsOrStr cfg.defaultTranslationStyle "natural"
      rw [h]
      rfl
    · show jsOrStr req.style (jsOrStr cfg.defaultTranslationStyle "natural") =
        jsOrStr cfg.defaultTranslationStyle "natural"
      rw [h]
      rfl
  · intro s hs hne
    show jsOrStr req.style (jsOrStr cfg.defaultTranslationStyle "natural") = s
    rw [hs]
    show (if s.isEmpty = true then jsOrStr cfg.defaultTranslationStyle "natural" else s) = s
    rw [hempty s hne]
    simp
  · intro α f
    rfl

/-- Witness for **C10**: a request with missing source and style fields is
dispatched with source `"auto"` and the default style, and an explicit style
is kept. -/
theorem handleTranslateRequest_normalizes_witness :
    (handleTranslateRequest BackendArgs.mk defaultConfig
      ⟨"Hi".data, none, "ja", none⟩).sourceLang = "auto"
    ∧ (handleTranslateRequest BackendArgs.mk defaultConfig
      ⟨"Hi".data, none, "ja", none⟩).style =
        jsOrStr defaultConfig.defaultTranslationStyle "natural"
    ∧ (handleTranslateRequest BackendArgs.mk defaultConfig
      ⟨"Hi".data, some "en", "ja", some "literal"⟩).style = "literal" :=
  have h1 := handleTranslateRequest_normalizes defaultConfig ⟨"Hi".data, none, "ja", none⟩
  have h2 := handleTranslateRequest_normalizes defaultConfig
    ⟨"Hi".data, some "en", "ja", some "literal"⟩
  ⟨h1.2.1 (Or.inl rfl), h1.2.2.2.1 (Or.inl rfl),
   h2.2.2.2.2.1 "literal" rfl (by decide)⟩

end Background

end Translator
